import Mathlib

/-!
Verification of the sign-recognition core of `src/isl_translator.py`
(class `ISLTranslator`).

Embedding conventions:
* Geometry is over `ℚ`; the Python threshold literals 0.04, 0.02, 0.08,
  0.4, 0.65 and the cooldown 1.5 are taken as exact rationals.
* Landmark access uses partial indexing (`l[i]?`), so a read of an absent
  landmark surfaces as `none`; the Python code would raise `IndexError`
  at the same access.
* Per-tick time (`time.time()`) is one rational `now` per tick.
* UI-only effects (tkinter labels, drawing, printing, message boxes) are
  not part of the model; the mutable fields of `ISLTranslator` touched by
  the recognition path form the state record `TState`.
-/

/-- One MediaPipe hand landmark: normalized x, y and relative z
(`landmarks[i].x` and so on in the source). -/
structure Landmark where
  x : ℚ
  y : ℚ
  z : ℚ
deriving DecidableEq

/-- Result of `get_finger_states`: one flag per finger, in the source
order [Thumb, Index, Middle, Ring, Pinky] (the source returns a plain
5-element list; the fields here are positions 0..4 of that list). -/
structure FingerStates where
  thumb : Bool
  index : Bool
  middle : Bool
  ring : Bool
  pinky : Bool
deriving DecidableEq

/-- `sum(finger_states)` as computed in `classify_sign`: the number of
extended fingers. -/
def extended_count (fs : FingerStates) : ℕ :=
  fs.thumb.toNat + fs.index.toNat + fs.middle.toNat + fs.ring.toNat + fs.pinky.toNat

/-- One entry of `features['hands']` built by `extract_hand_features`:
handedness label, finger states, palm direction and hand position.  The
`landmarks` entry of the Python dict is carried along but never read by
`classify_sign` or `recognize_sign`, so it is omitted here. -/
structure HandFeatures where
  hand_type : String
  finger_states : FingerStates
  palm_direction : String
  hand_position : String
deriving DecidableEq

set_option linter.unusedVariables false in
/-- `ISLTranslator.classify_sign(features, num_hands)`.  `features['hands']`
is the list argument; the `num_hands` parameter is accepted but, as in the
source, never used.  The nested `if finger_states[1] and extended_count <= 2:
if palm_dir in ["left", "right"]: return "ME/I"` of the source falls through
when the inner test fails, which is the flattened conjunction below.  The
final `extended_count >= 4` arm is unreachable (the first arm already
covers it) but is kept for faithfulness. -/
def classify_sign (hands : List HandFeatures) (num_hands : ℕ) : Option String :=
  match hands with
  | [] => none
  | hand :: _ =>
    let fs := hand.finger_states
    let palm_dir := hand.palm_direction
    let hand_pos := hand.hand_position
    let ec := extended_count fs
    if 4 ≤ ec then
      if hand_pos = "high" then some "HELLO"
      else if palm_dir = "forward" then some "THANK YOU"
      else if palm_dir = "down" then some "PLEASE"
      else some "HELLO"
    else if fs.index ∧ ec = 1 then some "YOU"
    else if fs.index ∧ ec ≤ 2 ∧ (palm_dir = "left" ∨ palm_dir = "right") then some "ME/I"
    else if fs.index ∧ fs.middle ∧ ec = 2 then some "PEACE"
    else if fs.index ∧ fs.middle ∧ fs.ring ∧ ec = 3 then some "WATER"
    else if fs.thumb ∧ ec = 1 then some "YES"
    else if ec = 0 then some "STOP"
    else if 4 ≤ ec then some "HELLO"
    else none

/-- `ISLTranslator.get_finger_states(landmarks)`.  Thumb: extended iff
`abs(thumb_tip.x - thumb_mcp.x) > 0.04` (landmarks 4 and 2; landmark 3 is
also read by the source, as `thumb_ip`, though unused).  Other fingers:
tip strictly above PIP by 0.02 (tips 8, 12, 16, 20 against pips 6, 10,
14, 18).  Every landmark read is partial: a missing index yields `none`,
where the Python code raises `IndexError`. -/
def get_finger_states (landmarks : List Landmark) : Option FingerStates := do
  let thumb_tip ← landmarks[4]?
  let _thumb_ip ← landmarks[3]?
  let thumb_mcp ← landmarks[2]?
  let thumb_extended := decide ((4 : ℚ)/100 < |thumb_tip.x - thumb_mcp.x|)
  let lm8 ← landmarks[8]?
  let lm6 ← landmarks[6]?
  let lm12 ← landmarks[12]?
  let lm10 ← landmarks[10]?
  let lm16 ← landmarks[16]?
  let lm14 ← landmarks[14]?
  let lm20 ← landmarks[20]?
  let lm18 ← landmarks[18]?
  pure ⟨thumb_extended,
        decide (lm8.y < lm6.y - 2/100),
        decide (lm12.y < lm10.y - 2/100),
        decide (lm16.y < lm14.y - 2/100),
        decide (lm20.y < lm18.y - 2/100)⟩

/-- `ISLTranslator.get_palm_direction(landmarks)`: the direction vector is
`landmarks[9] - landmarks[0]`; vertical components are checked before
horizontal ones, with "forward" as the fallthrough. -/
def get_palm_direction (landmarks : List Landmark) : Option String := do
  let wrist ← landmarks[0]?
  let mcp ← landmarks[9]?
  let dy := mcp.y - wrist.y
  let dx := mcp.x - wrist.x
  pure (if dy < -((8 : ℚ)/100) then "up"
        else if (8 : ℚ)/100 < dy then "down"
        else if dx < -((8 : ℚ)/100) then "left"
        else if (8 : ℚ)/100 < dx then "right"
        else "forward")

/-- `ISLTranslator.get_hand_position(landmarks)`: vertical band of the
wrist (landmark 0). -/
def get_hand_position (landmarks : List Landmark) : Option String := do
  let wrist ← landmarks[0]?
  pure (if wrist.y < (4 : ℚ)/10 then "high"
        else if (65 : ℚ)/100 < wrist.y then "low"
        else "middle")

/-- `ISLTranslator.extract_hand_features(hand_landmarks_list,
handedness_list)`: builds one `HandFeatures` per detected hand, reading
the handedness label at the same index (`handedness_list[idx]
.classification[0].label`, here the string at that index). -/
def extract_hand_features (hand_landmarks_list : List (List Landmark))
    (handedness_list : List String) : Option (List HandFeatures) :=
  (List.range hand_landmarks_list.length).mapM (fun idx => do
    let landmarks ← hand_landmarks_list[idx]?
    let hand_type ← handedness_list[idx]?
    let fs ← get_finger_states landmarks
    let pd ← get_palm_direction landmarks
    let hp ← get_hand_position landmarks
    pure ⟨hand_type, fs, pd, hp⟩)

/-- The two buffer mutations of `recognize_sign`:
`self.gesture_buffer.append(detected_word)` followed by
`if len(self.gesture_buffer) > self.buffer_size:
self.gesture_buffer.pop(0)`. -/
def push_evict (buffer_size : ℕ) (buf : List (Option String)) (x : Option String) :
    List (Option String) :=
  let b := buf ++ [x]
  if buffer_size < b.length then b.tail else b

/-- Helper for `most_common1`: scans the candidate list left to right and
keeps the earliest element whose occurrence count in `buf` is maximal
(a later candidate replaces the current best only when its count is
strictly larger, here phrased as the earlier element winning on `≤`). -/
def bestCand (buf : List (Option String)) : List (Option String) → Option (Option String × ℕ)
  | [] => none
  | k :: ks =>
    match bestCand buf ks with
    | none => some (k, buf.count k)
    | some (w, c) => if c ≤ buf.count k then some (k, buf.count k) else some (w, c)

/-- `Counter(self.gesture_buffer).most_common(1)[0]` from `recognize_sign`:
the pair (candidate, count) with the greatest count.  `Counter` stores
keys in first-insertion order and `most_common` (via `heapq.nlargest`)
breaks count ties toward the earlier key, so the winner is the candidate
whose first occurrence in the buffer is earliest; `bestCand` realizes
exactly that.  Returns `none` only on the empty buffer, where the Python
indexing `[0]` would raise. -/
def most_common1 (buf : List (Option String)) : Option (Option String × ℕ) :=
  bestCand buf buf

/-- One element of `self.conversation_history` as appended by
`save_sentence`. -/
structure HistoryEntry where
  timestamp : String
  text : String
  mode : String
deriving DecidableEq

/-- The mutable recognition state of `ISLTranslator`: the stability
buffer `gesture_buffer`, the accumulated `current_sentence`, the cooldown
timestamp `last_word_time` and the saved `conversation_history`. -/
structure TState where
  gesture_buffer : List (Option String)
  current_sentence : List String
  last_word_time : ℚ
  conversation_history : List HistoryEntry
deriving DecidableEq

/-- `ISLTranslator.recognize_sign(results, frame)` as a state transformer.
`hands` is the per-hand feature list (the extraction result for
`results.multi_hand_landmarks`); an empty list is the "no hand" guard
`if not results.multi_hand_landmarks: return`.  Then the cooldown guard,
classification, buffer push with eviction, and once the buffer holds at
least 3 entries the majority vote: a non-null winner with count at least
3 is promoted (sentence append, `last_word_time = now`, buffer cleared);
otherwise only the pushed buffer is kept.  The source condition
`most_common[1] >= 3 and most_common[0] is not None` is split into the
match on the winner and the count test. -/
def recognize_sign (cooldown_duration : ℚ) (buffer_size : ℕ) (now : ℚ)
    (hands : List HandFeatures) (s : TState) : TState :=
  if hands = [] then s
  else if now - s.last_word_time < cooldown_duration then s
  else
    let detected_word := classify_sign hands hands.length
    let buf := push_evict buffer_size s.gesture_buffer detected_word
    if 3 ≤ buf.length then
      match most_common1 buf with
      | some (some final_word, cnt) =>
        if 3 ≤ cnt then
          { gesture_buffer := []
            current_sentence := s.current_sentence ++ [final_word]
            last_word_time := now
            conversation_history := s.conversation_history }
        else { s with gesture_buffer := buf }
      | some (none, _) => { s with gesture_buffer := buf }
      | none => { s with gesture_buffer := buf }
    else { s with gesture_buffer := buf }

/-- `ISLTranslator.clear_sentence`: drops the sentence and the stability
buffer (the detected-word label reset is UI-only). -/
def clear_sentence (s : TState) : TState :=
  { s with current_sentence := [], gesture_buffer := [] }

/-- `ISLTranslator.save_sentence`: only when the current sentence is
nonempty, append a history entry with the formatted timestamp, the
space-joined sentence and the mode tag, then `clear_sentence`. -/
def save_sentence (timestamp : String) (s : TState) : TState :=
  if s.current_sentence = [] then s
  else
    let sentence := String.intercalate " " s.current_sentence
    clear_sentence
      { s with conversation_history :=
          s.conversation_history ++ [⟨timestamp, sentence, "sign_to_text"⟩] }

/-- The timestamps of the promoted SignEvents along a run: one tick is a
pair (time, detected hand features); a tick promotes exactly when it
extends the current sentence. -/
def promotion_times (cooldown_duration : ℚ) (buffer_size : ℕ) :
    TState → List (ℚ × List HandFeatures) → List ℚ
  | _, [] => []
  | s, inp :: rest =>
    let s2 := recognize_sign cooldown_duration buffer_size inp.1 inp.2 s
    if s.current_sentence.length < s2.current_sentence.length then
      inp.1 :: promotion_times cooldown_duration buffer_size s2 rest
    else
      promotion_times cooldown_duration buffer_size s2 rest

/-- The finger configuration of spec Scenario C: index and middle
extended, all other fingers folded. -/
def peaceFingers : FingerStates :=
  ⟨false, true, true, false, false⟩

/-- A fully open hand held high: all five fingers extended. -/
def openPalmHand : HandFeatures :=
  ⟨"Right", ⟨true, true, true, true, true⟩, "up", "high"⟩

/-- A landmark set with only 20 points: one short of the 21 MediaPipe
hand landmarks. -/
def shortHand : List Landmark :=
  List.replicate 20 ⟨0, 0, 0⟩

/-- A complete 21-point landmark set. -/
def fullHand : List Landmark :=
  List.replicate 21 ⟨0, 0, 0⟩

/-- The state at application start: empty buffer, empty sentence,
`last_word_time = 0`, empty history. -/
def initState : TState :=
  ⟨[], [], 0, []⟩

/-- A buffer one push away from the consensus of spec Scenario E. -/
def bufE : List (Option String) :=
  [some "HELLO", some "HELLO", some "HELLO", some "YOU"]

/-- A state holding `bufE` with the cooldown long expired. -/
def sE : TState :=
  ⟨bufE, [], 0, []⟩

/-- A buffer with "YOU" and "HELLO" tied at count 2; "YOU" occurs first. -/
def tieBuf : List (Option String) :=
  [some "YOU", some "HELLO", some "HELLO", some "YOU"]

/-- A run of six fast ticks of the open-palm hand: three promote "HELLO"
at 10.2 and three more at 12.2. -/
def demoTrace : List (ℚ × List HandFeatures) :=
  [(10, [openPalmHand]), (101/10, [openPalmHand]), (102/10, [openPalmHand]),
   (12, [openPalmHand]), (121/10, [openPalmHand]), (122/10, [openPalmHand])]

/-- A state with a nonempty sentence, ready to be saved. -/
def savedState : TState :=
  ⟨[some "YOU"], ["HELLO", "YOU"], 5, []⟩

/-! ## Helper lemmas -/

/-- `indexOf` at the head of a list. -/
lemma indexOf_cons_self_tok (a : Option String) (l : List (Option String)) :
    (a :: l).indexOf a = 0 := by
  simp [List.indexOf, List.findIdx_cons]

/-- `indexOf` past a non-matching head. -/
lemma indexOf_cons_ne_tok {k a : Option String} (l : List (Option String))
    (h : k ≠ a) : (k :: l).indexOf a = l.indexOf a + 1 := by
  have hb : (k == a) = false := beq_eq_false_iff_ne.mpr h
  simp [List.indexOf, List.findIdx_cons, hb]

/-- `bestCand` returns `none` only on the empty key list. -/
lemma bestCand_none (buf : List (Option String)) :
    ∀ ks : List (Option String), bestCand buf ks = none → ks = [] := by
  intro ks h
  cases ks with
  | nil => rfl
  | cons k ks =>
    exfalso
    simp only [bestCand] at h
    split at h
    · exact Option.noConfusion h
    · split at h <;> exact Option.noConfusion h

/-- The full specification of `bestCand`: the result is a key of the
list, its count is correct and maximal, and among the keys tied at the
maximal count the result is the one occurring earliest. -/
lemma bestCand_spec (buf : List (Option String)) :
    ∀ (keys : List (Option String)) (w : Option String) (c : ℕ),
      bestCand buf keys = some (w, c) →
      w ∈ keys ∧ c = buf.count w ∧ (∀ k ∈ keys, buf.count k ≤ c) ∧
        (∀ x ∈ keys, buf.count x = c → keys.indexOf w ≤ keys.indexOf x) := by
  intro keys
  induction keys with
  | nil => intro w c h; simp [bestCand] at h
  | cons k ks ih =>
    intro w c h
    simp only [bestCand] at h
    split at h
    · next heq =>
      simp only [Option.some.injEq, Prod.mk.injEq] at h
      obtain ⟨hw, hc⟩ := h
      subst hw
      subst hc
      have hks : ks = [] := bestCand_none buf ks heq
      subst hks
      refine ⟨List.mem_singleton_self _, rfl, ?_, ?_⟩
      · intro j hj
        rw [List.mem_singleton.mp hj]
      · intro x hx _
        rw [List.mem_singleton.mp hx]
    · next w1 c1 heq =>
      obtain ⟨hw1, hc1, hmax1, hfirst1⟩ := ih w1 c1 heq
      split at h
      · next hcle =>
        simp only [Option.some.injEq, Prod.mk.injEq] at h
        obtain ⟨hw, hc⟩ := h
        subst hw
        subst hc
        refine ⟨List.mem_cons_self _ _, rfl, ?_, ?_⟩
        · intro j hj
          rcases List.mem_cons.mp hj with rfl | hj
          · exact le_refl _
          · exact le_trans (hmax1 j hj) hcle
        · intro x _ _
          rw [indexOf_cons_self_tok]
          exact Nat.zero_le _
      · next hcle =>
        push_neg at hcle
        simp only [Option.some.injEq, Prod.mk.injEq] at h
        obtain ⟨hw, hc⟩ := h
        subst hw
        subst hc
        refine ⟨List.mem_cons_of_mem _ hw1, hc1, ?_, ?_⟩
        · intro j hj
          rcases List.mem_cons.mp hj with rfl | hj
          · exact le_of_lt hcle
          · exact hmax1 j hj
        · intro x hx hcx
          have hxk : k ≠ x := by
            rintro rfl
            rw [hcx] at hcle
            exact lt_irrefl _ hcle
          have hwk : k ≠ w1 := by
            rintro rfl
            rw [← hc1] at hcle
            exact lt_irrefl _ hcle
          rcases List.mem_cons.mp hx with rfl | hx2
          · exact absurd rfl hxk
          · rw [indexOf_cons_ne_tok ks hwk, indexOf_cons_ne_tok ks hxk]
            exact Nat.succ_le_succ (hfirst1 x hx2 hcx)

/-- Length bound for the push-and-evict buffer update. -/
lemma push_evict_length (N : ℕ) (buf : List (Option String)) (x : Option String)
    (h : buf.length ≤ N) : (push_evict N buf x).length ≤ N := by
  simp only [push_evict]
  split
  · next hlt =>
    simp only [List.length_tail, List.length_append, List.length_cons,
      List.length_nil]
    omega
  · next hge =>
    simp only [List.length_append, List.length_cons, List.length_nil] at hge ⊢
    omega

/-- Case split on one `recognize_sign` tick: either the tick leaves
sentence and cooldown timestamp unchanged, or it promotes — the sentence
grows by one token, the cooldown timestamp becomes `now`, and the tick
happened at least `cooldown_duration` after the previous timestamp. -/
lemma recognize_sign_step (cd : ℚ) (N : ℕ) (now : ℚ) (hands : List HandFeatures)
    (s : TState) :
    ((recognize_sign cd N now hands s).current_sentence = s.current_sentence ∧
      (recognize_sign cd N now hands s).last_word_time = s.last_word_time) ∨
    ((recognize_sign cd N now hands s).current_sentence.length =
        s.current_sentence.length + 1 ∧
      (recognize_sign cd N now hands s).last_word_time = now ∧
      s.last_word_time + cd ≤ now) := by
  simp only [recognize_sign]
  split
  · exact Or.inl ⟨rfl, rfl⟩
  · split
    · exact Or.inl ⟨rfl, rfl⟩
    · next hcd =>
      have hle : s.last_word_time + cd ≤ now := by
        rw [not_lt] at hcd
        linarith
      split
      · split
        · split
          · refine Or.inr ⟨?_, rfl, hle⟩
            simp
          · exact Or.inl ⟨rfl, rfl⟩
        · exact Or.inl ⟨rfl, rfl⟩
        · exact Or.inl ⟨rfl, rfl⟩
      · exact Or.inl ⟨rfl, rfl⟩

/-- Induction core for claim C1: along any run the promotion times are
pairwise spaced by at least the cooldown, and every promotion time is at
least one cooldown after the initial timestamp. -/
lemma promotion_times_spec (cd : ℚ) (N : ℕ) (hcd : 0 ≤ cd) :
    ∀ (ts : List (ℚ × List HandFeatures)) (s : TState),
      List.Pairwise (fun a b => a + cd ≤ b) (promotion_times cd N s ts) ∧
      ∀ p ∈ promotion_times cd N s ts, s.last_word_time + cd ≤ p := by
  intro ts
  induction ts with
  | nil => intro s; simp [promotion_times]
  | cons inp rest ih =>
    intro s
    have hstep := recognize_sign_step cd N inp.1 inp.2 s
    by_cases hp : s.current_sentence.length <
        (recognize_sign cd N inp.1 inp.2 s).current_sentence.length
    · have hprom : (recognize_sign cd N inp.1 inp.2 s).last_word_time = inp.1 ∧
          s.last_word_time + cd ≤ inp.1 := by
        rcases hstep with ⟨hsen, _⟩ | ⟨_, hlwt, hle⟩
        · rw [hsen] at hp
          exact absurd hp (lt_irrefl _)
        · exact ⟨hlwt, hle⟩
      obtain ⟨hlwt, hle⟩ := hprom
      have h2 := ih (recognize_sign cd N inp.1 inp.2 s)
      rw [promotion_times]
      simp only [hp, if_true]
      constructor
      · refine List.Pairwise.cons ?_ h2.1
        intro p hpm
        have := h2.2 p hpm
        rw [hlwt] at this
        exact this
      · intro p hpm
        rcases List.mem_cons.mp hpm with rfl | hpm2
        · exact hle
        · have := h2.2 p hpm2
          rw [hlwt] at this
          linarith
    · have hsame : (recognize_sign cd N inp.1 inp.2 s).last_word_time =
          s.last_word_time := by
        rcases hstep with ⟨_, hlwt⟩ | ⟨hlen, _, _⟩
        · exact hlwt
        · rw [hlen] at hp
          omega
      have h2 := ih (recognize_sign cd N inp.1 inp.2 s)
      rw [promotion_times]
      simp only [hp, if_false]
      exact ⟨h2.1, fun p hpm => hsame ▸ h2.2 p hpm⟩

/-! ## Claim theorems -/

/-- Claim C1: along every run of ticks, any two promotion timestamps are
at least `cooldown_duration` apart (for a nonnegative cooldown),
regardless of how fast or in what order the ticks arrive. -/
theorem c1_promotion_spacing (cd : ℚ) (N : ℕ) (s : TState)
    (ts : List (ℚ × List HandFeatures)) (hcd : 0 ≤ cd) :
    List.Pairwise (fun a b => a + cd ≤ b) (promotion_times cd N s ts) :=
  (promotion_times_spec cd N hcd ts s).1

/-- Witness for C1 with the default cooldown 1.5 on a concrete fast
trace. -/
theorem c1_promotion_spacing_witness :
    List.Pairwise (fun a b => a + (3/2 : ℚ) ≤ b)
      (promotion_times (3/2) 5 initState demoTrace) :=
  c1_promotion_spacing (3/2) 5 initState demoTrace (by norm_num)

/-- Claim C2, counterexample: a hand with exactly index and middle
extended but palm facing left classifies as "ME/I", not "PEACE" — the
ME/I arm is checked before the PEACE arm. -/
theorem c2_counterexample :
    classify_sign [⟨"Right", peaceFingers, "left", "middle"⟩] 1 = some "ME/I" ∧
    ¬ classify_sign [⟨"Right", peaceFingers, "left", "middle"⟩] 1 = some "PEACE" := by
  decide

/-- Claim C2 as amended: with finger states [F,T,T,F,F] the classifier
returns PEACE for every hand position and every palm direction other than
"left" and "right"; when the palm direction is "left" or "right" it
returns "ME/I" instead. -/
theorem c2_amended (ht pd hp : String) (rest : List HandFeatures) (n : ℕ) :
    (pd ≠ "left" → pd ≠ "right" →
      classify_sign (⟨ht, peaceFingers, pd, hp⟩ :: rest) n = some "PEACE") ∧
    (pd = "left" ∨ pd = "right" →
      classify_sign (⟨ht, peaceFingers, pd, hp⟩ :: rest) n = some "ME/I") := by
  constructor
  · intro h1 h2
    simp [classify_sign, peaceFingers, extended_count, h1, h2]
  · intro h
    rcases h with h | h <;> subst h <;> rfl

/-- Witness for C2 as amended, at palm direction "up" (PEACE branch) and
"left" (ME/I branch). -/
theorem c2_amended_witness :
    classify_sign [⟨"Right", peaceFingers, "up", "middle"⟩] 1 = some "PEACE" ∧
    classify_sign [⟨"Right", peaceFingers, "left", "middle"⟩] 1 = some "ME/I" :=
  ⟨(c2_amended "Right" "up" "middle" [] 1).1 (by decide) (by decide),
   (c2_amended "Right" "left" "middle" [] 1).2 (Or.inl rfl)⟩

/-- Claim C3: on a 20-point landmark set `get_finger_states` reads the
absent landmark 20 (the pinky tip) — in the model the extraction comes
back `none`, in the Python source this access raises `IndexError` instead
of the tick being treated as "no hand"; with all 21 points present the
extraction succeeds. -/
theorem c3_missing_landmark :
    get_finger_states shortHand = none ∧
    (get_finger_states fullHand).isSome = true :=
  ⟨rfl, rfl⟩

/-- Claim C4: after the push, once the buffer holds at least 3 entries
the majority vote runs; a non-null winner with count at least 3 is
promoted (token appended, timestamp updated, buffer cleared entirely),
while a null winner promotes nothing and leaves the pushed buffer as the
only state change. -/
theorem c4_vote_step (cd : ℚ) (N : ℕ) (now : ℚ) (hands : List HandFeatures)
    (s : TState) (hh : hands ≠ [])
    (hcd : ¬ now - s.last_word_time < cd)
    (hlen : 3 ≤ (push_evict N s.gesture_buffer
      (classify_sign hands hands.length)).length) :
    (∀ t c, most_common1 (push_evict N s.gesture_buffer
        (classify_sign hands hands.length)) = some (some t, c) → 3 ≤ c →
      recognize_sign cd N now hands s =
        { gesture_buffer := []
          current_sentence := s.current_sentence ++ [t]
          last_word_time := now
          conversation_history := s.conversation_history }) ∧
    (∀ c, most_common1 (push_evict N s.gesture_buffer
        (classify_sign hands hands.length)) = some (none, c) →
      recognize_sign cd N now hands s =
        { gesture_buffer := push_evict N s.gesture_buffer (classify_sign hands hands.length)
          current_sentence := s.current_sentence
          last_word_time := s.last_word_time
          conversation_history := s.conversation_history }) := by
  constructor
  · intro t c hmc h3
    simp only [recognize_sign]
    rw [if_neg hh, if_neg hcd]
    rw [if_pos hlen]
    split
    · next fw cnt heq =>
      rw [hmc] at heq
      simp only [Option.some.injEq, Prod.mk.injEq] at heq
      obtain ⟨hfw, hcnt⟩ := heq
      subst hfw
      subst hcnt
      rw [if_pos h3]
    · next cnt heq =>
      simp [hmc] at heq
    · next heq =>
      simp [hmc] at heq
  · intro c hmc
    simp only [recognize_sign]
    rw [if_neg hh, if_neg hcd]
    rw [if_pos hlen]
    split
    · next fw cnt heq =>
      simp [hmc] at heq
    · next cnt heq => rfl
    · next heq =>
      simp [hmc] at heq

/-- Witness for C4: pushing a fifth "HELLO" vote onto the Scenario E
buffer promotes "HELLO" and clears the buffer. -/
theorem c4_vote_step_witness :
    recognize_sign (3/2) 5 10 [openPalmHand] sE =
      { gesture_buffer := []
        current_sentence := ["HELLO"]
        last_word_time := 10
        conversation_history := [] } :=
  (c4_vote_step (3/2) 5 10 [openPalmHand] sE (by decide) (by norm_num [sE])
    (by decide)).1 "HELLO" 4 (by decide) (by norm_num)

/-- Claim C5: with at least four extended fingers the classifier always
returns a token of the open-palm family, chosen by hand position and palm
direction exactly as rule 1 of the spec describes; in particular the
result is never null. -/
theorem c5_open_palm_family (hand : HandFeatures) (rest : List HandFeatures) (n : ℕ)
    (h : 4 ≤ extended_count hand.finger_states) :
    classify_sign (hand :: rest) n ≠ none ∧
    classify_sign (hand :: rest) n ∈
      [some "HELLO", some "THANK YOU", some "PLEASE"] ∧
    classify_sign (hand :: rest) n =
      some (if hand.hand_position = "high" then "HELLO"
            else if hand.palm_direction = "forward" then "THANK YOU"
            else if hand.palm_direction = "down" then "PLEASE"
            else "HELLO") := by
  have heq : classify_sign (hand :: rest) n =
      some (if hand.hand_position = "high" then "HELLO"
            else if hand.palm_direction = "forward" then "THANK YOU"
            else if hand.palm_direction = "down" then "PLEASE"
            else "HELLO") := by
    simp only [classify_sign]
    rw [if_pos h]
    split_ifs <;> rfl
  refine ⟨?_, ?_, heq⟩
  · rw [heq]; simp
  · rw [heq]; split_ifs <;> simp

/-- Witness for C5 at a concrete open hand held high. -/
theorem c5_open_palm_family_witness :
    classify_sign [openPalmHand] 1 ≠ none :=
  (c5_open_palm_family openPalmHand [] 1 (by decide)).1

/-- Claim C6: the majority-vote winner carries the maximal count, and
among the buffer entries tied at that count it is the one whose first
occurrence in the buffer is earliest. -/
theorem c6_tie_break (buf : List (Option String)) (w : Option String) (c : ℕ)
    (h : most_common1 buf = some (w, c)) :
    (∀ k ∈ buf, buf.count k ≤ c) ∧
    (∀ x ∈ buf, buf.count x = c → buf.indexOf w ≤ buf.indexOf x) := by
  obtain ⟨_, _, hmax, hfirst⟩ := bestCand_spec buf buf w c h
  exact ⟨hmax, hfirst⟩

/-- Witness for C6 on a buffer with "YOU" and "HELLO" tied at count 2:
the winner "YOU" first occurs no later than "HELLO". -/
theorem c6_tie_break_witness :
    tieBuf.indexOf (some "YOU") ≤ tieBuf.indexOf (some "HELLO") :=
  (c6_tie_break tieBuf (some "YOU") 2 (by decide)).2 (some "HELLO")
    (by decide) (by decide)

/-- Claim C7: a tick arriving during the cooldown window changes nothing:
`recognize_sign` returns the state untouched — no classification, no
buffer push, no sentence growth, no timestamp change. -/
theorem c7_cooldown_skip (cd : ℚ) (N : ℕ) (now : ℚ) (hands : List HandFeatures)
    (s : TState) (hcd : now - s.last_word_time < cd) :
    recognize_sign cd N now hands s = s := by
  simp [recognize_sign, hcd]

/-- Witness for C7: half a time-unit after a promotion, with the default
cooldown 1.5, the tick is a no-op. -/
theorem c7_cooldown_skip_witness :
    recognize_sign (3/2) 5 (21/2) [openPalmHand] ⟨[], [], 10, []⟩ =
      ⟨[], [], 10, []⟩ :=
  c7_cooldown_skip (3/2) 5 (21/2) [openPalmHand] ⟨[], [], 10, []⟩ (by norm_num)

/-- Claim C8: the stability buffer never exceeds `buffer_size` across a
tick (push evicts the oldest entry on overflow, promotion clears), and
`clear_sentence` empties it. -/
theorem c8_buffer_bound (cd : ℚ) (N : ℕ) (now : ℚ) (hands : List HandFeatures)
    (s : TState) (h : s.gesture_buffer.length ≤ N) :
    (recognize_sign cd N now hands s).gesture_buffer.length ≤ N ∧
    (clear_sentence s).gesture_buffer.length = 0 := by
  refine ⟨?_, rfl⟩
  simp only [recognize_sign]
  split
  · exact h
  · split
    · exact h
    · split
      · split
        · split
          · exact Nat.zero_le _
          · exact push_evict_length N _ _ h
        · exact push_evict_length N _ _ h
        · exact push_evict_length N _ _ h
      · exact push_evict_length N _ _ h

/-- Witness for C8 at a full default-size buffer. -/
theorem c8_buffer_bound_witness :
    (recognize_sign (3/2) 5 10 [openPalmHand] sE).gesture_buffer.length ≤ 5 :=
  (c8_buffer_bound (3/2) 5 10 [openPalmHand] sE (by decide)).1

/-- Claim C9: a "no hand" tick is a no-op on the recognition state, and
so is any run made only of "no hand" ticks: buffer, sentence, timestamp
and history are all untouched. -/
theorem c9_no_hand_idempotent (cd : ℚ) (N : ℕ) (s : TState) (times : List ℚ) :
    (∀ now, recognize_sign cd N now [] s = s) ∧
    List.foldl (fun st t => recognize_sign cd N t [] st) s times = s := by
  refine ⟨fun _ => rfl, ?_⟩
  induction times generalizing s with
  | nil => rfl
  | cons t ts ih =>
    have h1 : recognize_sign cd N t [] s = s := rfl
    simp only [List.foldl, h1]
    exact ih s

/-- Claim C10: saving an empty sentence changes nothing; saving a
nonempty one appends exactly one history entry with the joined text and
then clears the sentence and the stability buffer, leaving the cooldown
timestamp alone. -/
theorem c10_save_sentence (ts : String) (s : TState) :
    (s.current_sentence = [] → save_sentence ts s = s) ∧
    (s.current_sentence ≠ [] →
      save_sentence ts s =
        { gesture_buffer := []
          current_sentence := []
          last_word_time := s.last_word_time
          conversation_history := s.conversation_history ++
            [⟨ts, String.intercalate " " s.current_sentence, "sign_to_text"⟩] }) := by
  constructor
  · intro h
    unfold save_sentence
    rw [if_pos h]
  · intro h
    unfold save_sentence
    rw [if_neg h]
    rfl

/-- Witness for C10: saving the empty initial state is a no-op; saving a
two-word sentence appends one entry and clears sentence and buffer. -/
theorem c10_save_sentence_witness :
    save_sentence "12:00:00" initState = initState ∧
    save_sentence "12:00:00" savedState =
      { gesture_buffer := []
        current_sentence := []
        last_word_time := 5
        conversation_history := [⟨"12:00:00", "HELLO YOU", "sign_to_text"⟩] } := by
  refine ⟨(c10_save_sentence "12:00:00" initState).1 rfl, ?_⟩
  have h := (c10_save_sentence "12:00:00" savedState).2 (by decide)
  rw [h]
  rfl
